import Mathlib

/-!
Shallow embedding of the quiz-competition backend (`src/server.js`) and proofs
about its request handlers: login, start-quiz, question retrieval, answer
submission and the admin reporting queries.  The relational store is modelled
as in-memory lists of rows; `bcrypt.compare` is an oracle parameter; the
random shuffle is an oracle parameter.
-/

namespace OnlineExam

/-- JSON scalar values appearing in response bodies. -/
inductive JVal where
  | s (v : String)
  | n (v : Int)
deriving Repr, DecidableEq

/-- A JSON object body: ordered key/value pairs. -/
abbrev JBody := List (String × JVal)

/-- An HTTP response: status code plus JSON object body. -/
structure HttpResponse where
  status : Nat
  body : JBody
deriving Repr, DecidableEq

/-- Row of the `questions` table. -/
structure Question where
  id : Int
  question_text : String
  option_a : String
  option_b : String
  option_c : String
  option_d : String
  correct_option : String
deriving Repr, DecidableEq

/-- The shape returned by `GET /questions`: the SELECT omits `correct_option`
(server.js:205). -/
structure PublicQuestion where
  id : Int
  question_text : String
  option_a : String
  option_b : String
  option_c : String
  option_d : String
deriving Repr, DecidableEq

/-- Projection performed by the column list of the SELECT in `GET /questions`. -/
def Question.publicView (q : Question) : PublicQuestion :=
  ⟨q.id, q.question_text, q.option_a, q.option_b, q.option_c, q.option_d⟩

/-- Row of the `users` table. -/
structure User where
  id : Int
  full_name : String
  email : String
  password_hash : String
  role : String
  quiz_status : String
deriving Repr, DecidableEq

/-- Row of the `attempts` table.  `score` and `end_time` are NULL until the
attempt is completed. -/
structure Attempt where
  id : Int
  user_id : Int
  shuffled_questions : List Int
  status : String
  score : Option Int
  created_at : Nat
  end_time : Option Nat
deriving Repr, DecidableEq

/-- The relational store. -/
structure DB where
  users : List User
  questions : List Question
  attempts : List Attempt
deriving Repr, DecidableEq

/-- Full server state: the store plus the in-memory session registry
(`sessions` map, server.js:21), modelled as a list of
(token, userId, role) entries. -/
structure ServerState where
  db : DB
  sessions : List (String × Int × String)
deriving Repr, DecidableEq

/-! ## POST /login (server.js:69-91) -/

/-- The `SELECT ... WHERE email=$1` row pick `result.rows[0]` (server.js:77). -/
def findUserByEmail (users : List User) (email : String) : Option User :=
  users.find? (fun u => u.email = email)

/-- Handler for `POST /login`.  `verify pw hash` models `bcrypt.compare`;
`token` models the freshly minted session id string. -/
def login (verify : String → String → Bool) (token : String)
    (email password : String) (st : ServerState) : HttpResponse × ServerState :=
  match findUserByEmail st.db.users email with
  | none => (⟨401, [("message", .s "Invalid login")]⟩, st)
  | some user =>
    if user.role = "student" ∧
        (user.quiz_status = "completed" ∨ user.quiz_status = "disqualified") then
      (⟨403, [("message", .s "Quiz already completed")]⟩, st)
    else if verify password user.password_hash then
      (⟨200, [("sessionId", .s token), ("role", .s user.role)]⟩,
       { st with sessions := (token, user.id, user.role) :: st.sessions })
    else
      (⟨401, [("message", .s "Invalid login")]⟩, st)

/-! ## POST /student/start-quiz (server.js:178-197) -/

def QUIZ_LENGTH : Nat := 50

/-- Result of `POST /student/start-quiz`. -/
inductive StartQuizResult where
  | badRequest (message : String)
  | ok (attemptId : Int) (questionIds : List Int)
deriving Repr, DecidableEq

/-- Handler for `POST /student/start-quiz`.  `shuffle` models
`.sort(() => 0.5 - Math.random())` (server.js:187): an oracle reordering of
the id list; `newAttemptId` models the id the INSERT RETURNING produces and
`now` the row creation time. -/
def startQuiz (shuffle : List Int → List Int) (newAttemptId : Int) (now : Nat)
    (userId : Int) (st : ServerState) : StartQuizResult × ServerState :=
  let all := st.db.questions.map (·.id)
  if all.length < QUIZ_LENGTH then
    (.badRequest "Not enough questions", st)
  else
    let ids := (shuffle all).take QUIZ_LENGTH
    let users' := st.db.users.map (fun u =>
      if u.id = userId then { u with quiz_status := "started" } else u)
    let att : Attempt := ⟨newAttemptId, userId, ids, "started", none, now, none⟩
    (.ok newAttemptId ids,
     { st with db := { st.db with users := users', attempts := st.db.attempts ++ [att] } })

/-! ## GET /questions (server.js:200-211) -/

/-- JS `String.prototype.split(',')` on a character list: `""` splits to
`[""]`, empty segments are kept. -/
def splitCommas : List Char → List Char → List (List Char)
  | [], cur => [cur.reverse]
  | c :: rest, cur =>
    if c = ',' then cur.reverse :: splitCommas rest [] else splitCommas rest (c :: cur)

/-- Digit value of a character under the given radix, if it is one. -/
def charVal (radix : Nat) (c : Char) : Option Nat :=
  let v :=
    if '0' ≤ c ∧ c ≤ '9' then some (c.toNat - 48)
    else if 'a' ≤ c ∧ c ≤ 'z' then some (c.toNat - 87)
    else if 'A' ≤ c ∧ c ≤ 'Z' then some (c.toNat - 55)
    else none
  match v with
  | some d => if d < radix then some d else none
  | none => none

/-- ECMAScript whitespace accepted by `parseInt`. -/
def isJsWs (c : Char) : Bool := c = ' ' ∨ c = '\t' ∨ c = '\n' ∨ c = '\r'

/-- ECMAScript `parseInt(string)` (radix argument absent): skip whitespace,
optional sign, optional `0x`/`0X` prefix selecting radix 16, then the longest
digit prefix; `none` models `NaN` (no digits). -/
def parseJsInt (s : List Char) : Option Int :=
  let cs := s.dropWhile isJsWs
  let signed : Int × List Char :=
    match cs with
    | '-' :: rest => (-1, rest)
    | '+' :: rest => (1, rest)
    | _ => (1, cs)
  let hexed : Nat × List Char :=
    match signed.2 with
    | '0' :: 'x' :: rest => (16, rest)
    | '0' :: 'X' :: rest => (16, rest)
    | _ => (10, signed.2)
  let ds := hexed.2.takeWhile (fun c => (charVal hexed.1 c).isSome)
  if ds = [] then none
  else some (signed.1 * (ds.foldl (fun acc c => acc * hexed.1 + ((charVal hexed.1 c).getD 0)) 0))

/-- JS truthiness of a `parseInt` result: `NaN` (modelled `none`) and `0` are
falsy, every other number truthy. -/
def numTruthy : Option Int → Bool
  | some n => n ≠ 0
  | none => false

/-- Line 201: `req.query.ids.split(',').map(id => parseInt(id)).filter(Boolean)`. -/
def toIdArray (raw : String) : List Int :=
  (((splitCommas raw.toList []).map parseJsInt).filter numTruthy).filterMap id

/-- Lines 209-210: reorder the store rows by the id list
(`idArray.map(id => rows.find(...))` then `.filter(Boolean)`). -/
def orderRows (idArray : List Int) (rows : List PublicQuestion) : List PublicQuestion :=
  (idArray.map (fun i => rows.find? (fun q => q.id = i))).filterMap id

/-- The store result for `SELECT ... WHERE id IN (...)`, in store order. -/
def matchingRows (questions : List Question) (idArray : List Int) : List PublicQuestion :=
  (questions.filter (fun q => idArray.contains q.id)).map Question.publicView

/-- Handler for `GET /questions` given the raw `ids` query string. -/
def getQuestionsHandler (db : DB) (raw : String) : List PublicQuestion :=
  let idArray := toIdArray raw
  orderRows idArray (matchingRows db.questions idArray)

/-! ## POST /student/submit-answers (server.js:213-254) -/

/-- The `WHERE id=$1 AND user_id=$2 AND status=$3` lookup (server.js:217-220),
picking `rows[0]`. -/
def findStartedAttempt (attempts : List Attempt) (attemptId userId : Int) : Option Attempt :=
  attempts.find? (fun a => a.id = attemptId ∧ a.user_id = userId ∧ a.status = "started")

/-- Rows of `SELECT id,correct_option FROM questions WHERE id IN (...)`
(server.js:229-232), in store order. -/
def correctPairs (questions : List Question) (ids : List Int) : List (Int × String) :=
  (questions.filter (fun q => ids.contains q.id)).map (fun q => (q.id, q.correct_option))

/-- The `map` object built by `correct.forEach(q => map[q.id] = q.correct_option)`
(server.js:235-236); a later row overwrites an earlier one, so lookup finds the
last matching pair. -/
def buildMap (pairs : List (Int × String)) (i : Int) : Option String :=
  (pairs.reverse.find? (fun p => p.1 = i)).map Prod.snd

/-- JS truthiness of `answers[id]`: `undefined` (modelled `none`) and the empty
string are falsy. -/
def ansTruthy : Option String → Bool
  | some s => s ≠ ""
  | none => false

/-- Lines 234-240: `ids.forEach(id => { if (answers[id] && answers[id] === map[id]) score++ })`. -/
def computeScore (ids : List Int) (m : Int → Option String)
    (answers : Int → Option String) : Nat :=
  ids.foldl (fun score i =>
    if ansTruthy (answers i) ∧ answers i = m i then score + 1 else score) 0

/-- Handler for `POST /student/submit-answers`.  `answers` models the JSON
`answers{id:choice}` map; `now` models `NOW()`. -/
def submitAnswers (now : Nat) (attemptId userId : Int)
    (answers : Int → Option String) (st : ServerState) : HttpResponse × ServerState :=
  match findStartedAttempt st.db.attempts attemptId userId with
  | none => (⟨200, [("message", .s "Quiz already submitted.")]⟩, st)
  | some att =>
    let ids := att.shuffled_questions
    let m := buildMap (correctPairs st.db.questions ids)
    let score := computeScore ids m answers
    let attempts' := st.db.attempts.map (fun a =>
      if a.id = attemptId then
        { a with score := some (score : Int), status := "completed", end_time := some now }
      else a)
    let users' := st.db.users.map (fun u =>
      if u.id = userId then { u with quiz_status := "completed" } else u)
    (⟨200, [("message", .s "Quiz submitted successfully!")]⟩,
     { st with db := { st.db with users := users', attempts := attempts' } })

/-! ## Admin reporting (server.js:100-146 and 257-268) -/

/-- Row of the `/admin/metrics` results listing. -/
structure ResultRow where
  full_name : String
  email : String
  score : Option Int
  created_at : Nat
  end_time : Option Nat
deriving Repr, DecidableEq

/-- Row of `/leaderboard-data` (`SELECT u.full_name, a.score, a.created_at`). -/
structure LeaderboardRow where
  full_name : String
  score : Option Int
  created_at : Nat
deriving Repr, DecidableEq

/-- The `attempts JOIN users ON a.user_id = u.id WHERE a.status='completed'`
relation, in store order. -/
def completedJoin (db : DB) : List ResultRow :=
  (db.attempts.filter (fun a => a.status = "completed")).flatMap (fun a =>
    (db.users.filter (fun u => u.id = a.user_id)).map (fun u =>
      ⟨u.full_name, u.email, a.score, a.created_at, a.end_time⟩))

/-- PostgreSQL `ORDER BY score DESC`: NULLs first under DESC; `a` may come
no later than `b`. -/
def scoreDescLe (a b : Option Int) : Bool :=
  match a, b with
  | none, _ => true
  | some _, none => false
  | some x, some y => y ≤ x

/-- PostgreSQL `ORDER BY end_time ASC`: NULLs last under ASC. -/
def endAscLe (a b : Option Nat) : Bool :=
  match a, b with
  | none, none => true
  | none, some _ => false
  | some _, none => true
  | some x, some y => x ≤ y

/-- The two-key ordering `ORDER BY a.score DESC, a.end_time ASC`. -/
def resultLe (r r' : ResultRow) : Bool :=
  if r.score = r'.score then endAscLe r.end_time r'.end_time
  else scoreDescLe r.score r'.score

/-- The `/admin/metrics` results listing (server.js:120-133). -/
def adminResults (db : DB) : List ResultRow :=
  (completedJoin db).mergeSort resultLe

/-- The `/leaderboard-data` rows (server.js:257-265): same join and ordering,
`LIMIT 10`, projected to the three selected columns. -/
def leaderboardData (db : DB) : List LeaderboardRow :=
  (((completedJoin db).mergeSort resultLe).take 10).map (fun r =>
    ⟨r.full_name, r.score, r.created_at⟩)

/-- One id scores under the specification's reading when a submitted answer
exists and exactly equals the correct option. -/
def specHit (m answers : Int → Option String) (i : Int) : Bool :=
  match answers i with
  | some s => m i == some s
  | none => false

/-- Score as the specification words it: the count of ids in the attempt's
list whose submitted answer exactly equals that question's correct option; an
id with no submitted answer contributes 0. -/
def specScore (ids : List Int) (m answers : Int → Option String) : Nat :=
  (ids.filter (specHit m answers)).length

/-- Fixture for the C1 witness: three questions with correct options A, B, C. -/
def c1Questions : List Question :=
  [⟨1, "q1", "a", "b", "c", "d", "A"⟩,
   ⟨2, "q2", "a", "b", "c", "d", "B"⟩,
   ⟨3, "q3", "a", "b", "c", "d", "C"⟩]

/-- Fixture for the C1 witness: a started attempt over question order [1,2,3]. -/
def c1Attempt : Attempt := ⟨10, 1, [1, 2, 3], "started", none, 0, none⟩

/-- Fixture for the C1 witness. -/
def c1State : ServerState := ⟨⟨[], c1Questions, [c1Attempt]⟩, []⟩

/-- Fixture for the C1 witness: answers A, X, C to questions 1, 2, 3. -/
def c1Answers : Int → Option String := fun i =>
  if i = 1 then some "A" else if i = 2 then some "X"
  else if i = 3 then some "C" else none

/-- Fixture for the C3 witness: one started attempt, empty question pool. -/
def c3State : ServerState := ⟨⟨[], [], [⟨10, 1, [1], "started", none, 0, none⟩]⟩, []⟩

/-- Fixture for the C2 witness: three rows in scrambled store order. -/
def c2Rows : List PublicQuestion :=
  [⟨2, "t2", "a", "b", "c", "d"⟩, ⟨3, "t3", "a", "b", "c", "d"⟩,
   ⟨1, "t1", "a", "b", "c", "d"⟩]

/-- Fixture for the C2 witness: the same rows in another store order. -/
def c2RowsAlt : List PublicQuestion :=
  [⟨1, "t1", "a", "b", "c", "d"⟩, ⟨2, "t2", "a", "b", "c", "d"⟩,
   ⟨3, "t3", "a", "b", "c", "d"⟩]

/-! ## Helper lemmas -/

theorem computeScore_go (ids : List Int) (m answers : Int → Option String) (n : Nat) :
    ids.foldl (fun score i =>
        if ansTruthy (answers i) ∧ answers i = m i then score + 1 else score) n
      = n + computeScore ids m answers := by
  induction ids generalizing n with
  | nil => simp [computeScore]
  | cons i rest ih =>
    simp only [computeScore, List.foldl_cons] at *
    by_cases h : ansTruthy (answers i) ∧ answers i = m i
    · rw [if_pos h, if_pos h, ih, ih 1]; omega
    · rw [if_neg h, if_neg h, ih, ih 0]

theorem computeScore_cons (i : Int) (rest : List Int) (m answers : Int → Option String) :
    computeScore (i :: rest) m answers =
      (if ansTruthy (answers i) ∧ answers i = m i then 1 else 0)
        + computeScore rest m answers := by
  simp only [computeScore, List.foldl_cons]
  by_cases h : ansTruthy (answers i) ∧ answers i = m i
  · rw [if_pos h]
    simpa using computeScore_go rest m answers 1
  · rw [if_neg h]
    omega

/-- When no correct option is the empty string (question creation rejects
empty fields, server.js:159), the JS truthiness guard on `answers[id]` changes
nothing: the code's score is exactly the specification's count. -/
theorem computeScore_eq_specScore (ids : List Int) (m answers : Int → Option String)
    (hne : ∀ i s, m i = some s → s ≠ "") :
    computeScore ids m answers = specScore ids m answers := by
  induction ids with
  | nil => rfl
  | cons i rest ih =>
    have hiff : (ansTruthy (answers i) ∧ answers i = m i) ↔
        specHit m answers i = true := by
      unfold specHit
      cases ha : answers i with
      | none => simp [ansTruthy]
      | some s =>
        simp only [ansTruthy, beq_iff_eq, decide_eq_true_eq, ne_eq]
        constructor
        · rintro ⟨_, he⟩
          exact he.symm
        · intro he
          exact ⟨hne i s he, he.symm⟩
    rw [computeScore_cons, ih]
    simp only [specScore]
    by_cases h : specHit m answers i = true
    · rw [List.filter_cons_of_pos h, if_pos (hiff.2 h), List.length_cons]
      omega
    · rw [List.filter_cons_of_neg h, if_neg (fun hc => h (hiff.1 hc))]
      omega

theorem buildMap_mem (pairs : List (Int × String)) (i : Int) (s : String)
    (h : buildMap pairs i = some s) : (i, s) ∈ pairs := by
  unfold buildMap at h
  rcases Option.map_eq_some'.1 h with ⟨p, hp, hsnd⟩
  have h1 : p.1 = i := by simpa using List.find?_some hp
  have h2 : p ∈ pairs := List.mem_reverse.1 (List.mem_of_find?_eq_some hp)
  have : p = (i, s) := Prod.ext h1 hsnd
  rwa [this] at h2

theorem orderRows_cons (i : Int) (rest : List Int) (rows : List PublicQuestion) :
    orderRows (i :: rest) rows =
      match rows.find? (fun q => q.id = i) with
      | none => orderRows rest rows
      | some q => q :: orderRows rest rows := by
  simp only [orderRows, List.map_cons, List.filterMap_cons]
  cases rows.find? (fun q => q.id = i) <;> rfl

/-- The ids of the reordered result are exactly the requested ids that have a
matching row, in request order; ids with no row are dropped. -/
theorem orderRows_map_id (ids : List Int) (rows : List PublicQuestion) :
    (orderRows ids rows).map (·.id) =
      ids.filter (fun i => rows.any (fun q => q.id = i)) := by
  induction ids with
  | nil => rfl
  | cons i rest ih =>
    rw [orderRows_cons]
    cases hfind : rows.find? (fun q => q.id = i) with
    | none =>
      have hany : rows.any (fun q => decide (q.id = i)) = false := by
        rw [List.any_eq_false]
        intro x hx
        simpa using List.find?_eq_none.1 hfind x hx
      rw [List.filter_cons_of_neg (by simp [hany]), ih]
    | some q =>
      have hq : q.id = i := by simpa using List.find?_some hfind
      have hany : rows.any (fun q => decide (q.id = i)) = true :=
        List.any_eq_true.2 ⟨q, List.mem_of_find?_eq_some hfind, by simpa using hq⟩
      rw [List.filter_cons_of_pos (by simp [hany]), List.map_cons, ih, hq]

/-- With pairwise-distinct row ids (the store's primary key), `find` is
insensitive to the order in which the store returns the rows. -/
theorem find_id_perm (rows rows' : List PublicQuestion) (h : rows.Perm rows')
    (hnd : (rows.map (·.id)).Nodup) (i : Int) :
    rows.find? (fun q => q.id = i) = rows'.find? (fun q => q.id = i) := by
  cases hx : rows.find? (fun q => q.id = i) with
  | none =>
    cases hy : rows'.find? (fun q => q.id = i) with
    | none => rfl
    | some y =>
      have hymem : y ∈ rows := h.symm.subset (List.mem_of_find?_eq_some hy)
      exact absurd (List.find?_some hy) (List.find?_eq_none.1 hx y hymem)
  | some x =>
    have hxmem := List.mem_of_find?_eq_some hx
    have hxp : x.id = i := by simpa using List.find?_some hx
    cases hy : rows'.find? (fun q => q.id = i) with
    | none =>
      exact absurd (List.find?_some hx) (List.find?_eq_none.1 hy x (h.subset hxmem))
    | some y =>
      have hymem : y ∈ rows := h.symm.subset (List.mem_of_find?_eq_some hy)
      have hyp : y.id = i := by simpa using List.find?_some hy
      have hxy : x = y :=
        List.inj_on_of_nodup_map hnd hxmem hymem (hxp.trans hyp.symm)
      rw [hxy]

theorem orderRows_congr (ids : List Int) (rows rows' : List PublicQuestion)
    (h : rows.Perm rows') (hnd : (rows.map (·.id)).Nodup) :
    orderRows ids rows = orderRows ids rows' := by
  unfold orderRows
  rw [show (fun i => rows.find? (fun q => q.id = i))
        = (fun i => rows'.find? (fun q => q.id = i)) from
      funext (find_id_perm rows rows' h hnd)]

theorem orderRows_mem (ids : List Int) (rows : List PublicQuestion)
    (p : PublicQuestion) (hp : p ∈ orderRows ids rows) : p ∈ rows := by
  unfold orderRows at hp
  rcases List.mem_filterMap.1 hp with ⟨o, ho, hid⟩
  rcases List.mem_map.1 ho with ⟨i, _, rfl⟩
  exact List.mem_of_find?_eq_some hid

/-- Every pipeline of map-then-filter-truthy over parseInt results equals a
single filterMap that drops non-numeric tokens and zero. -/
theorem toIdArray_eq_filterMap (l : List (List Char)) :
    ((l.map parseJsInt).filter numTruthy).filterMap id =
      l.filterMap (fun tok =>
        match parseJsInt tok with
        | some n => if n = 0 then none else some n
        | none => none) := by
  induction l with
  | nil => rfl
  | cons t rest ih =>
    simp only [List.map_cons, List.filterMap_cons]
    cases hp : parseJsInt t with
    | none =>
      rw [List.filter_cons_of_neg (by simp [hp, numTruthy])]
      exact ih
    | some n =>
      by_cases hn : n = 0
      · rw [List.filter_cons_of_neg (by simp [hp, hn, numTruthy])]
        simpa [hn] using ih
      · rw [List.filter_cons_of_pos (by simp [hp, hn, numTruthy])]
        simpa [hn] using ih

theorem toIdArray_ne_zero (raw : String) (x : Int) (hx : x ∈ toIdArray raw) :
    x ≠ 0 := by
  unfold toIdArray at hx
  rcases List.mem_filterMap.1 hx with ⟨o, ho, hid⟩
  have hox : o = some x := hid
  rcases List.mem_filter.1 ho with ⟨_, htruthy⟩
  rw [hox] at htruthy
  simpa [numTruthy] using htruthy

/-- The no-match branch of submit-answers (server.js:222-224): a
success-shaped acknowledgment, state unchanged. -/
theorem submitAnswers_of_none (now : Nat) (attemptId userId : Int)
    (answers : Int → Option String) (st : ServerState)
    (h : findStartedAttempt st.db.attempts attemptId userId = none) :
    submitAnswers now attemptId userId answers st =
      (⟨200, [("message", .s "Quiz already submitted.")]⟩, st) := by
  simp only [submitAnswers, h]

/-- After a successful submission every attempt row bearing that id has status
"completed", so the started-status lookup finds nothing, for any caller. -/
theorem findStartedAttempt_after_submit (now : Nat) (attemptId userId userId' : Int)
    (answers : Int → Option String) (st : ServerState) (att : Attempt)
    (hf : findStartedAttempt st.db.attempts attemptId userId = some att) :
    findStartedAttempt
        ((submitAnswers now attemptId userId answers st).2).db.attempts
        attemptId userId' = none := by
  simp only [submitAnswers, hf]
  simp only [findStartedAttempt]
  rw [List.find?_eq_none]
  intro a ha
  rcases List.mem_map.1 ha with ⟨b, _, rfl⟩
  by_cases hid : b.id = attemptId
  · simp [hid]
  · simp [hid]

/-! ## Theorems -/

/-- Claim C8: when the question pool holds strictly fewer than QUIZ_LENGTH (50)
questions, `startQuiz` answers BadRequest ("Not enough questions"), creates no
attempt row and changes no user's quiz_status: the whole server state is
returned unchanged. -/
theorem startQuiz_insufficient_pool (shuffle : List Int → List Int)
    (newAttemptId : Int) (now : Nat) (userId : Int) (st : ServerState)
    (h : st.db.questions.length < QUIZ_LENGTH) :
    startQuiz shuffle newAttemptId now userId st =
      (.badRequest "Not enough questions", st) := by
  simp only [startQuiz, List.length_map]
  rw [if_pos h]

/-- Witness for C8: a state with an empty question pool is refused and left
untouched. -/
theorem startQuiz_insufficient_pool_witness :
    startQuiz (fun l => l) 1 0 7 ⟨⟨[], [], []⟩, []⟩ =
      (.badRequest "Not enough questions", ⟨⟨[], [], []⟩, []⟩) :=
  startQuiz_insufficient_pool (fun l => l) 1 0 7 ⟨⟨[], [], []⟩, []⟩ (by decide)

/-- Claim C6: a student whose quiz_status is "completed" or "disqualified" is
refused login with Forbidden (403, "Quiz already completed") no matter what
`bcrypt.compare` would answer for the supplied credential, and the server
state — in particular the session registry — is unchanged: no token is
minted. -/
theorem login_completed_student_forbidden (verify : String → String → Bool)
    (token email password : String) (st : ServerState) (u : User)
    (hu : findUserByEmail st.db.users email = some u)
    (hrole : u.role = "student")
    (hstatus : u.quiz_status = "completed" ∨ u.quiz_status = "disqualified") :
    login verify token email password st =
      (⟨403, [("message", .s "Quiz already completed")]⟩, st) := by
  simp only [login, hu]
  rw [if_pos ⟨hrole, hstatus⟩]

/-- Witness for C6: a completed student is refused even by a verifier that
accepts every credential. -/
theorem login_completed_student_forbidden_witness :
    login (fun _ _ => true) "t" "a@b" "pw"
        ⟨⟨[⟨1, "n", "a@b", "h", "student", "completed"⟩], [], []⟩, []⟩ =
      (⟨403, [("message", .s "Quiz already completed")]⟩,
       ⟨⟨[⟨1, "n", "a@b", "h", "student", "completed"⟩], [], []⟩, []⟩) :=
  login_completed_student_forbidden (fun _ _ => true) "t" "a@b" "pw"
    ⟨⟨[⟨1, "n", "a@b", "h", "student", "completed"⟩], [], []⟩, []⟩
    ⟨1, "n", "a@b", "h", "student", "completed"⟩ (by decide) rfl (Or.inl rfl)

/-- Claim C9 counterexample: the claim quantifies over ALL matching users, but
for a student whose quiz_status is "completed" a wrong-credential login
returns 403 "Quiz already completed" — not the 401 "Invalid login" an unknown
email gets — so the two error responses are distinguishable. -/
theorem login_error_uniformity_counterexample :
    (login (fun _ _ => false) "t" "a@b" "pw"
        ⟨⟨[⟨1, "n", "a@b", "h", "student", "completed"⟩], [], []⟩, []⟩).1.status = 403 ∧
    (login (fun _ _ => false) "t" "zz@b" "pw"
        ⟨⟨[⟨1, "n", "a@b", "h", "student", "completed"⟩], [], []⟩, []⟩).1.status = 401 ∧
    (login (fun _ _ => false) "t" "a@b" "pw"
        ⟨⟨[⟨1, "n", "a@b", "h", "student", "completed"⟩], [], []⟩, []⟩).1 ≠
    (login (fun _ _ => false) "t" "zz@b" "pw"
        ⟨⟨[⟨1, "n", "a@b", "h", "student", "completed"⟩], [], []⟩, []⟩).1 := by
  refine ⟨rfl, rfl, ?_⟩
  decide

/-- Claim C9 (amended): provided the matched user is NOT a student with
quiz_status "completed"/"disqualified" (that case returns Forbidden before the
credential is examined), an unknown-email login and a wrong-credential login
produce literally the same response: 401 with body message "Invalid login". -/
theorem login_error_uniformity_amended (verify : String → String → Bool)
    (tok₁ tok₂ email₁ pw₁ email₂ pw₂ : String) (st : ServerState) (u : User)
    (h₁ : findUserByEmail st.db.users email₁ = none)
    (h₂ : findUserByEmail st.db.users email₂ = some u)
    (hopen : ¬(u.role = "student" ∧
        (u.quiz_status = "completed" ∨ u.quiz_status = "disqualified")))
    (hbad : verify pw₂ u.password_hash = false) :
    (login verify tok₁ email₁ pw₁ st).1 = ⟨401, [("message", .s "Invalid login")]⟩ ∧
    (login verify tok₂ email₂ pw₂ st).1 = ⟨401, [("message", .s "Invalid login")]⟩ := by
  constructor
  · simp only [login, h₁]
  · simp only [login, h₂]
    rw [if_neg hopen, hbad]
    simp

/-- Witness for C9's amended theorem: an unattempted student with a rejected
credential and an unknown email both receive the identical 401 body. -/
theorem login_error_uniformity_amended_witness :
    (login (fun _ _ => false) "t" "zz@b" "pw"
        ⟨⟨[⟨1, "n", "a@b", "h", "student", "unattempted"⟩], [], []⟩, []⟩).1 =
      ⟨401, [("message", .s "Invalid login")]⟩ ∧
    (login (fun _ _ => false) "t" "a@b" "pw"
        ⟨⟨[⟨1, "n", "a@b", "h", "student", "unattempted"⟩], [], []⟩, []⟩).1 =
      ⟨401, [("message", .s "Invalid login")]⟩ :=
  login_error_uniformity_amended (fun _ _ => false) "t" "t" "zz@b" "pw" "a@b" "pw"
    ⟨⟨[⟨1, "n", "a@b", "h", "student", "unattempted"⟩], [], []⟩, []⟩
    ⟨1, "n", "a@b", "h", "student", "unattempted"⟩
    (by decide) (by decide) (by decide) rfl

/-- Claim C1: on a found started attempt, submit-answers persists as the
attempt's score exactly the count of ids in the persisted list whose submitted
answer equals that question's correct option — an id with no submitted answer
contributes 0 and causes no error — provided no correct option is the empty
string (which question creation guarantees, server.js:159); in particular for
question order [1,2,3] with correct options [A,B,C] and answers {1:A, 2:X,
3:C} the computed score is 2. -/
theorem submitAnswers_scoring (now : Nat) (attemptId userId : Int)
    (answers : Int → Option String) (st : ServerState) (att : Attempt)
    (hf : findStartedAttempt st.db.attempts attemptId userId = some att)
    (hne : ∀ p ∈ correctPairs st.db.questions att.shuffled_questions, p.2 ≠ "") :
    (∀ a ∈ ((submitAnswers now attemptId userId answers st).2).db.attempts,
        a.id = attemptId →
          a.score = some ((specScore att.shuffled_questions
              (buildMap (correctPairs st.db.questions att.shuffled_questions))
              answers : Nat) : Int) ∧
          a.status = "completed") ∧
    computeScore [1, 2, 3] (buildMap [(1, "A"), (2, "B"), (3, "C")])
      (fun i => if i = 1 then some "A" else if i = 2 then some "X"
        else if i = 3 then some "C" else none) = 2 := by
  constructor
  · intro a ha haid
    simp only [submitAnswers, hf] at ha
    rcases List.mem_map.1 ha with ⟨b, _, rfl⟩
    by_cases hbid : b.id = attemptId
    · simp only [if_pos hbid]
      refine ⟨?_, by trivial⟩
      have hne' : ∀ i s,
          buildMap (correctPairs st.db.questions att.shuffled_questions) i = some s →
            s ≠ "" :=
        fun i s h => hne _ (buildMap_mem _ _ _ h)
      rw [computeScore_eq_specScore _ _ _ hne']
    · rw [if_neg hbid] at haid
      exact absurd haid hbid
  · decide

/-- Witness for C1: in the fixture state, the completed attempt carries score
2, matching the specification count. -/
theorem submitAnswers_scoring_witness :
    ((⟨10, 1, [1, 2, 3], "completed", some 2, 0, some 5⟩ : Attempt).score =
        some ((specScore [1, 2, 3]
            (buildMap (correctPairs c1State.db.questions [1, 2, 3]))
            c1Answers : Nat) : Int) ∧
      (⟨10, 1, [1, 2, 3], "completed", some 2, 0, some 5⟩ : Attempt).status =
        "completed") ∧
    computeScore [1, 2, 3] (buildMap [(1, "A"), (2, "B"), (3, "C")])
      c1Answers = 2 := by
  have h := submitAnswers_scoring 5 10 1 c1Answers c1State c1Attempt
    (by decide) (by decide)
  exact ⟨h.1 ⟨10, 1, [1, 2, 3], "completed", some 2, 0, some 5⟩ (by decide) rfl, h.2⟩

/-- Claim C3: when no attempt matches (id, calling user, status "started") the
call returns the success-shaped acknowledgment and leaves the whole server
state unchanged; and after any successful submission, a second submission for
the same attemptId — by any caller — is such a no-op, so the score and status
set by the first submission stay as they are. -/
theorem submitAnswers_noop_idempotent (now now' : Nat)
    (attemptId userId userId' : Int) (answers answers' : Int → Option String)
    (st : ServerState) :
    (findStartedAttempt st.db.attempts attemptId userId = none →
      submitAnswers now attemptId userId answers st =
        (⟨200, [("message", .s "Quiz already submitted.")]⟩, st)) ∧
    (∀ att, findStartedAttempt st.db.attempts attemptId userId = some att →
      submitAnswers now' attemptId userId' answers'
          (submitAnswers now attemptId userId answers st).2 =
        (⟨200, [("message", .s "Quiz already submitted.")]⟩,
          (submitAnswers now attemptId userId answers st).2)) := by
  refine ⟨fun h => submitAnswers_of_none now attemptId userId answers st h, ?_⟩
  intro att hf
  exact submitAnswers_of_none now' attemptId userId' answers'
    (submitAnswers now attemptId userId answers st).2
    (findStartedAttempt_after_submit now attemptId userId userId' answers st att hf)

/-- Witness for C3: an unknown attempt id is a state-preserving no-op, and
resubmitting attempt 10 after its successful submission changes nothing. -/
theorem submitAnswers_noop_idempotent_witness :
    (submitAnswers 0 99 1 (fun _ => none) c3State =
      (⟨200, [("message", .s "Quiz already submitted.")]⟩, c3State)) ∧
    (submitAnswers 6 10 2 (fun _ => none)
        (submitAnswers 5 10 1 (fun _ => none) c3State).2 =
      (⟨200, [("message", .s "Quiz already submitted.")]⟩,
        (submitAnswers 5 10 1 (fun _ => none) c3State).2)) :=
  ⟨(submitAnswers_noop_idempotent 0 0 99 1 1 (fun _ => none) (fun _ => none)
      c3State).1 (by decide),
   (submitAnswers_noop_idempotent 5 6 10 1 2 (fun _ => none) (fun _ => none)
      c3State).2 ⟨10, 1, [1], "started", none, 0, none⟩ (by decide)⟩

/-- Claim C5: whatever the state and input, the body of the
`POST /student/submit-answers` response is exactly one of the two one-field
message objects — so it never carries the numeric score, and indeed carries no
numeric value at all. -/
theorem submitAnswers_response_hides_score (now : Nat) (attemptId userId : Int)
    (answers : Int → Option String) (st : ServerState) :
    ((submitAnswers now attemptId userId answers st).1.body =
        [("message", .s "Quiz submitted successfully!")] ∨
      (submitAnswers now attemptId userId answers st).1.body =
        [("message", .s "Quiz already submitted.")]) ∧
    ((submitAnswers now attemptId userId answers st).1.body.map Prod.fst).contains
        "score" = false ∧
    (submitAnswers now attemptId userId answers st).1.body.all
        (fun kv => match kv.2 with | .s _ => true | .n _ => false) = true := by
  unfold submitAnswers
  cases hf : findStartedAttempt st.db.attempts attemptId userId <;> simp

/-- Claim C2: GET /questions lists the matching rows in exactly the input id
order — the output's ids are the input ids filtered to those with a matching
row, ids with no row silently dropped; with pairwise-distinct row ids the
result is the same whatever order the store returns rows in; and every
returned element is the `publicView` projection of a stored question, i.e.
the correct-option column is omitted. -/
theorem getQuestions_order_spec (idArray : List Int)
    (rows rowsAlt : List PublicQuestion) (db : DB) (raw : String) :
    ((orderRows idArray rows).map (·.id) =
        idArray.filter (fun i => rows.any (fun q => q.id = i))) ∧
    (rows.Perm rowsAlt → (rows.map (·.id)).Nodup →
      orderRows idArray rows = orderRows idArray rowsAlt) ∧
    (∀ p ∈ getQuestionsHandler db raw, ∃ q ∈ db.questions, p = q.publicView) := by
  refine ⟨orderRows_map_id idArray rows,
    fun h hnd => orderRows_congr _ _ _ h hnd, ?_⟩
  intro p hp
  simp only [getQuestionsHandler] at hp
  have hp' := orderRows_mem _ _ p hp
  unfold matchingRows at hp'
  rcases List.mem_map.1 hp' with ⟨q, hq, rfl⟩
  exact ⟨q, List.mem_of_mem_filter hq, rfl⟩

/-- Witness for C2: requesting [3,1,2] returns rows in order [3,1,2], and two
store orders of the same rows give the identical response. -/
theorem getQuestions_order_spec_witness :
    ((orderRows [3, 1, 2] c2Rows).map (·.id) = [3, 1, 2]) ∧
    orderRows [3, 1, 2] c2Rows = orderRows [3, 1, 2] c2RowsAlt := by
  have h := getQuestions_order_spec [3, 1, 2] c2Rows c2RowsAlt ⟨[], [], []⟩ ""
  refine ⟨?_, h.2.1 (by decide) (by decide)⟩
  rw [h.1]
  decide

/-- Claim C10: line 201 parses each comma-separated token with `parseInt` and
filters through JS truthiness, so non-numeric tokens (NaN) and the id 0 are
silently removed before ordering; consequently id 0 never occurs among the
requested ids nor among the ids the endpoint returns, whatever the store
holds; e.g. "3,abc,0,2" requests exactly [3, 2]. -/
theorem getQuestions_id_parsing (raw : String) (db : DB) :
    (toIdArray raw =
      (splitCommas raw.toList []).filterMap (fun tok =>
        match parseJsInt tok with
        | some n => if n = 0 then none else some n
        | none => none)) ∧
    (toIdArray raw).contains 0 = false ∧
    ((getQuestionsHandler db raw).map (·.id)).contains 0 = false ∧
    toIdArray "3,abc,0,2" = [3, 2] := by
  refine ⟨toIdArray_eq_filterMap (splitCommas raw.toList []), ?_, ?_, by decide⟩
  · rw [List.contains_eq_any_beq, List.any_eq_false]
    intro x hx h
    exact toIdArray_ne_zero raw x hx (beq_iff_eq.mp h).symm
  · rw [List.contains_eq_any_beq, List.any_eq_false]
    intro y hy h
    simp only [getQuestionsHandler] at hy
    rw [orderRows_map_id] at hy
    exact toIdArray_ne_zero raw y (List.mem_of_mem_filter hy)
      (beq_iff_eq.mp h).symm

theorem scoreDescLe_refl (x : Option Int) : scoreDescLe x x = true := by
  cases x <;> simp [scoreDescLe]

theorem scoreDescLe_total (x y : Option Int) :
    (scoreDescLe x y || scoreDescLe y x) = true := by
  cases x <;> cases y <;> simp [scoreDescLe]
  omega

theorem scoreDescLe_trans {x y z : Option Int} (h1 : scoreDescLe x y = true)
    (h2 : scoreDescLe y z = true) : scoreDescLe x z = true := by
  cases x <;> cases y <;> cases z <;> simp [scoreDescLe] at *
  omega

theorem endAscLe_total (x y : Option Nat) :
    (endAscLe x y || endAscLe y x) = true := by
  cases x <;> cases y <;> simp [endAscLe]
  omega

theorem endAscLe_trans {x y z : Option Nat} (h1 : endAscLe x y = true)
    (h2 : endAscLe y z = true) : endAscLe x z = true := by
  cases x <;> cases y <;> cases z <;> simp [endAscLe] at *
  omega

theorem resultLe_total (a b : ResultRow) :
    (resultLe a b || resultLe b a) = true := by
  unfold resultLe
  by_cases hab : a.score = b.score
  · rw [if_pos hab, if_pos hab.symm]
    exact endAscLe_total _ _
  · rw [if_neg hab, if_neg (fun h => hab h.symm)]
    exact scoreDescLe_total _ _

theorem resultLe_trans (a b c : ResultRow) (h1 : resultLe a b = true)
    (h2 : resultLe b c = true) : resultLe a c = true := by
  unfold resultLe at *
  by_cases hab : a.score = b.score
  · by_cases hac : a.score = c.score
    · have hbc : b.score = c.score := hab.symm.trans hac
      rw [if_pos hab] at h1
      rw [if_pos hbc] at h2
      rw [if_pos hac]
      exact endAscLe_trans h1 h2
    · have hbc : ¬b.score = c.score := fun h => hac (hab.trans h)
      rw [if_neg hbc] at h2
      rw [if_neg hac, hab]
      exact h2
  · by_cases hbc : b.score = c.score
    · have hac : ¬a.score = c.score := fun h => hab (h.trans hbc.symm)
      rw [if_neg hab] at h1
      rw [if_neg hac, ← hbc]
      exact h1
    · rw [if_neg hab] at h1
      rw [if_neg hbc] at h2
      by_cases hac : a.score = c.score
      · exfalso
        rw [← hac] at h2
        cases ha : a.score <;> cases hb : b.score <;>
          rw [ha, hb] at h1 h2 hab <;> simp [scoreDescLe] at h1 h2 hab
        omega
      · rw [if_neg hac]
        exact scoreDescLe_trans h1 h2

/-- Unpacking the two-key comparator: earlier rows score no less, and on a
score tie the earlier row's completion time is no later. -/
theorem resultLe_unpack (r r' : ResultRow) (h : resultLe r r' = true) :
    scoreDescLe r.score r'.score = true ∧
      (r.score = r'.score → endAscLe r.end_time r'.end_time = true) := by
  unfold resultLe at h
  by_cases he : r.score = r'.score
  · rw [if_pos he] at h
    exact ⟨he ▸ scoreDescLe_refl r.score, fun _ => h⟩
  · rw [if_neg he] at h
    exact ⟨h, fun hc => absurd hc he⟩

/-- Claim C7: the admin results listing is the completed-attempt join ordered
by score descending with ties broken by completion time ascending — every row
scores no less than any later row, and rows with equal scores appear with the
earlier completion time first — and it loses or invents no row; the
leaderboard is exactly the first 10 rows of that same ordering, projected to
its three columns. -/
theorem admin_ordering (db : DB) :
    ((adminResults db).Pairwise (fun r r' =>
        scoreDescLe r.score r'.score = true ∧
          (r.score = r'.score → endAscLe r.end_time r'.end_time = true))) ∧
    (adminResults db).Perm (completedJoin db) ∧
    leaderboardData db =
      ((adminResults db).take 10).map (fun r =>
        ⟨r.full_name, r.score, r.created_at⟩) := by
  refine ⟨?_, List.mergeSort_perm _ _, rfl⟩
  exact (List.sorted_mergeSort resultLe_trans resultLe_total
    (completedJoin db)).imp (fun h => resultLe_unpack _ _ h)

end OnlineExam
